import Mathlib

/-!
Verification of the ArthaSetu SIP (Systematic Investment Plan) calculation engine
(sip-calculator source file: class SIPCalculator) and the related helpers in
utils.js (class Utils).

Modelling conventions.
JavaScript numbers are idealised as exact rationals.  A JavaScript arithmetic
expression whose value is a finite number is modelled as `some q : Option ℚ`;
the IEEE special values (NaN, Infinity, -Infinity), which in this code arise
only from division by zero and then propagate through every later operation and
comparison, are modelled uniformly by `none`.  On every input domain used below
the collapsed special values are never recombined into finite values, so the
abstraction is exact: a field is `none` exactly when the JavaScript program
stores a non-finite number in it.

`Math.round x` is `⌊x + 1/2⌋` (ECMAScript rounds halves toward +∞);
`x.toFixed 1` is modelled by the rational value `⌊10 x + 1/2⌋ / 10` that the
rendered one-decimal string denotes (ECMAScript picks the larger candidate on
ties).  `years` and the projection `interval` are natural numbers: every claim
under scrutiny quantifies over positive integer years and intervals.
-/

/-- JavaScript Math.round on a finite number: round half toward plus infinity. -/
def jround (x : ℚ) : ℤ := ⌊x + 1/2⌋

/-- Value denoted by the one-decimal string produced by toFixed 1. -/
def toFixed1 (x : ℚ) : ℚ := (⌊x * 10 + 1/2⌋ : ℚ) / 10

/-- Multiplication on idealised JavaScript numbers (`none` = non-finite). -/
def jmul (a b : Option ℚ) : Option ℚ := a.bind fun x => b.map fun y => x * y

/-- Subtraction on idealised JavaScript numbers. -/
def jsub (a b : Option ℚ) : Option ℚ := a.bind fun x => b.map fun y => x - y

/-- Division on idealised JavaScript numbers: dividing by zero produces a
non-finite number (NaN or a signed infinity), modelled as `none`. -/
def jdiv (a b : Option ℚ) : Option ℚ :=
  a.bind fun x => b.bind fun y => if y = 0 then none else some (x / y)

/-- JavaScript Math.abs, propagating non-finite values. -/
def jabs (a : Option ℚ) : Option ℚ := a.map fun x => |x|

/-- A JavaScript comparison x < c: false whenever x is NaN. -/
def jlt (a : Option ℚ) (c : ℚ) : Bool :=
  match a with
  | none => false
  | some x => decide (x < c)

/-- Math.round lifted to idealised JavaScript numbers. -/
def jroundO (a : Option ℚ) : Option ℤ := a.map jround

/-- An integer-valued idealised JavaScript number, read back as a number. -/
def castO (a : Option ℤ) : Option ℚ := a.map fun z => (z : ℚ)

/-- Result record of SIPCalculator.calculateForwardSIP. -/
structure ForwardResult where
  futureValue : Option ℤ
  principal : ℤ
  gains : Option ℤ
  gainPercent : Option ℚ
  monthlyRate : ℚ
  months : ℕ
  deriving DecidableEq, Repr

/-- Result record of SIPCalculator.calculateReverseSIP. -/
structure ReverseResult where
  monthlySIP : Option ℤ
  totalInvested : Option ℤ
  totalGains : Option ℤ
  gainPercent : Option ℚ
  monthlyRate : ℚ
  months : ℕ
  deriving DecidableEq, Repr

/-- Result record of SIPCalculator.verifyCalculation. -/
structure VerifyResult where
  forward : ForwardResult
  reverse : ReverseResult
  isAccurate : Bool
  variance : Option ℚ
  deriving DecidableEq, Repr

/-- One row of the projection table of SIPCalculator.generateProjectionTable. -/
structure ProjectionRow where
  month : ℕ
  year : ℚ
  principal : ℤ
  gains : Option ℤ
  futureValue : Option ℤ
  deriving DecidableEq, Repr

namespace SIPCalculator

/-- SIPCalculator.calculateForwardSIP: future value of a SIP under
beginning-of-period compounding, FV = P * ((1+r)^n - 1)/r * (1+r). -/
def calculateForwardSIP (monthlyAmount : ℚ) (years : ℕ) (annualRate : ℚ) :
    ForwardResult :=
  let monthlyRate : ℚ := annualRate / 12 / 100
  let months : ℕ := years * 12
  let principal : ℚ := monthlyAmount * months
  let numer : ℚ := (1 + monthlyRate) ^ months - 1
  let futureValue : Option ℚ :=
    jmul (jmul (some monthlyAmount) (jdiv (some numer) (some monthlyRate)))
      (some (1 + monthlyRate))
  let gains : Option ℚ := jsub futureValue (some principal)
  let gainPercent : Option ℚ := jmul (jdiv gains futureValue) (some 100)
  { futureValue := jroundO futureValue
    principal := jround principal
    gains := jroundO gains
    gainPercent := gainPercent.map toFixed1
    monthlyRate := monthlyRate
    months := months }

/-- SIPCalculator.calculateReverseSIP: required monthly SIP for a goal,
P = FV / (((1+r)^n - 1)/r * (1+r)).  The goal argument is an idealised
JavaScript number because verifyCalculation feeds a computed field back in. -/
def calculateReverseSIP (goalAmount : Option ℚ) (years : ℕ) (annualRate : ℚ) :
    ReverseResult :=
  let monthlyRate : ℚ := annualRate / 12 / 100
  let months : ℕ := years * 12
  let numer : ℚ := (1 + monthlyRate) ^ months - 1
  let divisor : Option ℚ :=
    jmul (jdiv (some numer) (some monthlyRate)) (some (1 + monthlyRate))
  let monthlySIP : Option ℚ := jdiv goalAmount divisor
  let totalInvested : Option ℚ := jmul monthlySIP (some (months : ℚ))
  let totalGains : Option ℚ := jsub goalAmount totalInvested
  let gainPercent : Option ℚ := jmul (jdiv totalGains goalAmount) (some 100)
  { monthlySIP := jroundO monthlySIP
    totalInvested := jroundO totalInvested
    totalGains := jroundO totalGains
    gainPercent := gainPercent.map toFixed1
    monthlyRate := monthlyRate
    months := months }

/-- SIPCalculator.verifyCalculation: forward, then reverse on the rounded
future value, comparing the recovered monthly amount within 1 rupee. -/
def verifyCalculation (monthlyAmount : ℚ) (years : ℕ) (annualRate : ℚ) :
    VerifyResult :=
  let forward := calculateForwardSIP monthlyAmount years annualRate
  let reverse := calculateReverseSIP (castO forward.futureValue) years annualRate
  let diff : Option ℚ :=
    jabs (jsub (castO reverse.monthlySIP) (some monthlyAmount))
  { forward := forward
    reverse := reverse
    isAccurate := jlt diff 1
    variance := diff }

/-- Body of the projection-table loop of generateProjectionTable: the row for
sampled month m, using the same forward-value formula with n = m. -/
def projectionRow (monthlyAmount monthlyRate : ℚ) (m : ℕ) : ProjectionRow :=
  let numer : ℚ := (1 + monthlyRate) ^ m - 1
  let fv : Option ℚ :=
    jmul (jmul (some monthlyAmount) (jdiv (some numer) (some monthlyRate)))
      (some (1 + monthlyRate))
  let principal : ℚ := monthlyAmount * m
  let gains : Option ℚ := jsub fv (some principal)
  { month := m
    year := toFixed1 ((m : ℚ) / 12)
    principal := jround principal
    gains := jroundO gains
    futureValue := jroundO fv }

/-- The loop for (let m = interval; m <= months; m += interval) of
generateProjectionTable, started at month m.  (For interval = 0 the
JavaScript loop would not terminate; the guard keeps the model total, and
every claim about the table assumes interval >= 1.) -/
def projectionLoop (monthlyAmount monthlyRate : ℚ) (months interval m : ℕ) :
    List ProjectionRow :=
  if _h : 0 < interval ∧ m ≤ months then
    projectionRow monthlyAmount monthlyRate m ::
      projectionLoop monthlyAmount monthlyRate months interval (m + interval)
  else []
termination_by months + 1 - m
decreasing_by omega

/-- SIPCalculator.generateProjectionTable: rows sampled every interval months. -/
def generateProjectionTable (monthlyAmount : ℚ) (years : ℕ) (annualRate : ℚ)
    (interval : ℕ) : List ProjectionRow :=
  let monthlyRate : ℚ := annualRate / 12 / 100
  let months : ℕ := years * 12
  projectionLoop monthlyAmount monthlyRate months interval interval

end SIPCalculator

/-- Result record of Utils.calculateSIPFuture (unrounded). -/
structure SIPFutureResult where
  futureValue : Option ℚ
  principal : ℚ
  gains : Option ℚ
  deriving DecidableEq, Repr

namespace Utils

/-- Utils.calculateSIPFuture: the second, unrounded forward SIP implementation,
fv = sip * (pow(1+r, months) - 1) / r * (1+r) with r = annualRate/100/12. -/
def calculateSIPFuture (sip : ℚ) (years : ℕ) (annualRate : ℚ) :
    SIPFutureResult :=
  let monthlyRate : ℚ := annualRate / 100 / 12
  let months : ℕ := years * 12
  let fv : Option ℚ :=
    jmul (jdiv (jmul (some sip) (some ((1 + monthlyRate) ^ months - 1)))
        (some monthlyRate))
      (some (1 + monthlyRate))
  { futureValue := fv
    principal := sip * months
    gains := jsub fv (some (sip * months)) }

/-- Metrics record consumed by Utils.scoreFund. -/
structure FundMetrics where
  er : ℚ
  alpha : ℚ
  sharpe : ℚ
  cagr : ℚ
  deriving DecidableEq, Repr

/-- Utils.scoreFund: threshold-based fund score, Math.round of the sum of the
four criterion contributions. -/
def scoreFund (metrics : FundMetrics) : ℤ :=
  let score : ℚ :=
    (if metrics.er ≤ 1/2 then 25
     else if metrics.er ≤ 1 then 20
     else if metrics.er ≤ 3/2 then 15
     else 10) +
    ((if metrics.alpha ≥ 3 then 25
      else if metrics.alpha ≥ 2 then 20
      else if metrics.alpha ≥ 1 then 15
      else if metrics.alpha ≥ 0 then 10
      else 5) +
     ((if metrics.sharpe ≥ 2 then 25
       else if metrics.sharpe ≥ 3/2 then 20
       else if metrics.sharpe ≥ 1 then 15
       else 10) +
      (if metrics.cagr ≥ 18 then 25
       else if metrics.cagr ≥ 15 then 20
       else if metrics.cagr ≥ 12 then 15
       else 10)))
  jround score

end Utils

/-- The exact (unrounded) forward future value computed by the engine when the
monthly rate is nonzero: P * ((1+r)^n - 1)/r * (1+r). -/
def fvExact (monthlyAmount : ℚ) (n : ℕ) (monthlyRate : ℚ) : ℚ :=
  monthlyAmount * (((1 + monthlyRate) ^ n - 1) / monthlyRate) * (1 + monthlyRate)

/-- The annuity-due factor ((1+r)^n - 1)/r * (1+r): the divisor of the
reverse calculation, and fvExact for a unit monthly amount. -/
def annuityFactor (n : ℕ) (monthlyRate : ℚ) : ℚ :=
  ((1 + monthlyRate) ^ n - 1) / monthlyRate * (1 + monthlyRate)

section HelperLemmas

theorem jmul_some_some (a b : ℚ) : jmul (some a) (some b) = some (a * b) := rfl

theorem jsub_some_some (a b : ℚ) : jsub (some a) (some b) = some (a - b) := rfl

theorem jdiv_some_some (a b : ℚ) :
    jdiv (some a) (some b) = if b = 0 then none else some (a / b) := rfl

theorem jmul_none_left (b : Option ℚ) : jmul none b = none := rfl

theorem jsub_none_left (b : Option ℚ) : jsub none b = none := rfl

theorem jdiv_none_left (b : Option ℚ) : jdiv none b = none := rfl

theorem jroundO_some (a : ℚ) : jroundO (some a) = some (jround a) := rfl

theorem jroundO_none : jroundO none = none := rfl

theorem castO_some (z : ℤ) : castO (some z) = some ((z : ℚ)) := rfl

theorem castO_none : castO none = none := rfl

theorem jabs_some (a : ℚ) : jabs (some a) = some |a| := rfl

theorem jlt_some (a c : ℚ) : jlt (some a) c = decide (a < c) := rfl

theorem jround_intCast (z : ℤ) : jround (z : ℚ) = z := by
  unfold jround
  rw [add_comm, Int.floor_add_int]
  norm_num

theorem jround_intCast_add (z : ℤ) (x : ℚ) : jround ((z : ℚ) + x) = z + jround x := by
  unfold jround
  rw [show (z : ℚ) + x + 1/2 = x + 1/2 + (z : ℚ) by ring, Int.floor_add_int]
  omega

theorem abs_jround_sub (x : ℚ) : |(jround x : ℚ) - x| ≤ 1/2 := by
  unfold jround
  have h1 : (⌊x + 1/2⌋ : ℚ) ≤ x + 1/2 := Int.floor_le _
  have h2 : x + 1/2 - 1 < (⌊x + 1/2⌋ : ℚ) := Int.sub_one_lt_floor _
  rw [abs_le]
  constructor <;> linarith

theorem jround_le {x y : ℚ} (h : x ≤ y) : jround x ≤ jround y :=
  Int.floor_le_floor (by linarith)

theorem jround_lt {x y : ℚ} (h : x + 1 ≤ y) : jround x < jround y := by
  have h1 : jround (x + 1) ≤ jround y := jround_le h
  have h2 : jround (x + 1) = jround x + 1 := by
    unfold jround
    rw [show x + 1 + 1/2 = x + 1/2 + 1 by ring, Int.floor_add_one]
  omega

theorem fvExact_eq_mul (P : ℚ) (n : ℕ) (ρ : ℚ) :
    fvExact P n ρ = P * annuityFactor n ρ := by
  unfold fvExact annuityFactor
  ring

theorem annuityFactor_eq_sum {ρ : ℚ} (hρ : ρ ≠ 0) (n : ℕ) :
    annuityFactor n ρ = ∑ k ∈ Finset.range n, (1 + ρ) ^ (k + 1) := by
  unfold annuityFactor
  have h1 : (1 : ℚ) + ρ ≠ 1 := fun hc => hρ (by linarith)
  have h2 := geom_sum_eq h1 n
  rw [show (1 : ℚ) + ρ - 1 = ρ by ring] at h2
  rw [← h2, Finset.sum_mul]
  exact Finset.sum_congr rfl fun k _ => (pow_succ _ k).symm

theorem le_annuityFactor {ρ : ℚ} (hρ : 0 < ρ) (n : ℕ) :
    (n : ℚ) ≤ annuityFactor n ρ := by
  rw [annuityFactor_eq_sum hρ.ne' n]
  calc (n : ℚ) = ∑ _k ∈ Finset.range n, (1 : ℚ) := by simp
  _ ≤ ∑ k ∈ Finset.range n, (1 + ρ) ^ (k + 1) :=
      Finset.sum_le_sum fun k _ => one_le_pow₀ (by linarith)

end HelperLemmas

section EngineLemmas

namespace SIPCalculator

theorem forward_futureValue_of_ne {P : ℚ} {y : ℕ} {r : ℚ} (h : r / 12 / 100 ≠ 0) :
    (calculateForwardSIP P y r).futureValue =
      some (jround (fvExact P (y * 12) (r / 12 / 100))) := by
  unfold calculateForwardSIP fvExact
  simp only [jdiv_some_some, if_neg h, jmul_some_some, jroundO_some]

theorem forward_principal (P : ℚ) (y : ℕ) (r : ℚ) :
    (calculateForwardSIP P y r).principal = jround (P * ((y * 12 : ℕ) : ℚ)) := rfl

theorem forward_gains_of_ne {P : ℚ} {y : ℕ} {r : ℚ} (h : r / 12 / 100 ≠ 0) :
    (calculateForwardSIP P y r).gains =
      some (jround (fvExact P (y * 12) (r / 12 / 100) - P * ((y * 12 : ℕ) : ℚ))) := by
  unfold calculateForwardSIP fvExact
  simp only [jdiv_some_some, if_neg h, jmul_some_some, jsub_some_some, jroundO_some]

theorem forward_futureValue_of_zero {P : ℚ} {y : ℕ} {r : ℚ} (h : r / 12 / 100 = 0) :
    (calculateForwardSIP P y r).futureValue = none := by
  unfold calculateForwardSIP
  simp only [jdiv_some_some, if_pos h]
  rfl

theorem reverse_monthlySIP_of_ne {g : ℚ} {y : ℕ} {r : ℚ} (h : r / 12 / 100 ≠ 0)
    (hD : annuityFactor (y * 12) (r / 12 / 100) ≠ 0) :
    (calculateReverseSIP (some g) y r).monthlySIP =
      some (jround (g / annuityFactor (y * 12) (r / 12 / 100))) := by
  have hD' : ((1 + r / 12 / 100) ^ (y * 12) - 1) / (r / 12 / 100) * (1 + r / 12 / 100) ≠ 0 := hD
  unfold calculateReverseSIP
  simp only [jdiv_some_some, if_neg h, jmul_some_some, if_neg hD', jroundO_some]
  rfl

theorem verify_fields_of_ne {P : ℚ} {y : ℕ} {r : ℚ} (h : r / 12 / 100 ≠ 0)
    (hD : annuityFactor (y * 12) (r / 12 / 100) ≠ 0) :
    (verifyCalculation P y r).reverse.monthlySIP =
      some (jround ((jround (fvExact P (y * 12) (r / 12 / 100)) : ℚ) /
        annuityFactor (y * 12) (r / 12 / 100))) ∧
    (verifyCalculation P y r).variance =
      some |(jround ((jround (fvExact P (y * 12) (r / 12 / 100)) : ℚ) /
        annuityFactor (y * 12) (r / 12 / 100)) : ℚ) - P| ∧
    (verifyCalculation P y r).isAccurate =
      decide (|(jround ((jround (fvExact P (y * 12) (r / 12 / 100)) : ℚ) /
        annuityFactor (y * 12) (r / 12 / 100)) : ℚ) - P| < 1) := by
  simp only [verifyCalculation, forward_futureValue_of_ne h, castO_some,
    reverse_monthlySIP_of_ne h hD, jsub_some_some, jabs_some, jlt_some]
  exact ⟨trivial, trivial, trivial⟩

end SIPCalculator

theorem abs_roundtrip_lt_one (P D : ℚ) (hD : 1 < D) :
    |(jround ((jround (P * D) : ℚ) / D) : ℚ) - P| < 1 := by
  have hD0 : (0 : ℚ) < D := by linarith
  have h1 : |(jround ((jround (P * D) : ℚ) / D) : ℚ) - (jround (P * D) : ℚ) / D| ≤ 1/2 :=
    abs_jround_sub _
  have h2 : |(jround (P * D) : ℚ) - P * D| ≤ 1/2 := abs_jround_sub _
  have h3 : (jround (P * D) : ℚ) / D - P = ((jround (P * D) : ℚ) - P * D) / D := by
    field_simp
    ring
  have h4 : |(jround (P * D) : ℚ) / D - P| ≤ (1/2) / D := by
    rw [h3, abs_div, abs_of_pos hD0]
    exact (div_le_div_iff_of_pos_right hD0).mpr h2
  have h5 : (1/2 : ℚ) / D < 1/2 := by
    calc (1/2 : ℚ) / D < (1/2) / 1 := div_lt_div_of_pos_left (by norm_num) (by norm_num) hD
    _ = 1/2 := by norm_num
  calc |(jround ((jround (P * D) : ℚ) / D) : ℚ) - P|
      ≤ |(jround ((jround (P * D) : ℚ) / D) : ℚ) - (jround (P * D) : ℚ) / D| +
        |(jround (P * D) : ℚ) / D - P| := abs_sub_le _ _ _
  _ ≤ 1/2 + (1/2) / D := add_le_add h1 h4
  _ < 1/2 + 1/2 := by linarith
  _ = 1 := by norm_num

end EngineLemmas

section MonotonicityLemmas

theorem fvExact_lt_fvExact_months {P ρ : ℚ} (hP : 0 < P) (hρ : 0 < ρ)
    {n₁ n₂ : ℕ} (h : n₁ < n₂) : fvExact P n₁ ρ < fvExact P n₂ ρ := by
  unfold fvExact
  have hx : (1 : ℚ) < 1 + ρ := by linarith
  have hp : (1 + ρ) ^ n₁ < (1 + ρ) ^ n₂ := pow_lt_pow_right₀ hx h
  have h1 : ((1 + ρ) ^ n₁ - 1) / ρ < ((1 + ρ) ^ n₂ - 1) / ρ :=
    div_lt_div_of_pos_right (by linarith) hρ
  exact mul_lt_mul_of_pos_right (mul_lt_mul_of_pos_left h1 hP) (by linarith)

theorem fvExact_lt_fvExact_rate {P : ℚ} (hP : 0 < P) {n : ℕ} (hn : n ≠ 0)
    {r₁ r₂ : ℚ} (h1 : 0 < r₁) (h12 : r₁ < r₂) :
    fvExact P n r₁ < fvExact P n r₂ := by
  rw [fvExact_eq_mul, fvExact_eq_mul, annuityFactor_eq_sum h1.ne' n,
    annuityFactor_eq_sum (by linarith : r₂ ≠ 0) n]
  apply mul_lt_mul_of_pos_left _ hP
  apply Finset.sum_lt_sum_of_nonempty (Finset.nonempty_range_iff.mpr hn)
  intro k _
  exact pow_lt_pow_left₀ (by linarith) (by linarith) (Nat.succ_ne_zero k)

theorem fvExact_add_le {P ρ : ℚ} (hP : 1 ≤ P) (hρ : 0 < ρ) (m i : ℕ) :
    fvExact P m ρ + (i : ℚ) ≤ fvExact P (m + i) ρ := by
  rw [fvExact_eq_mul, fvExact_eq_mul, annuityFactor_eq_sum hρ.ne',
    annuityFactor_eq_sum hρ.ne', Finset.range_eq_Ico]
  have hsplit := Finset.sum_Ico_consecutive (fun k => (1 + ρ) ^ (k + 1))
    (Nat.zero_le m) (Nat.le_add_right m i)
  have hmid : (i : ℚ) ≤ ∑ k ∈ Finset.Ico m (m + i), (1 + ρ) ^ (k + 1) := by
    calc (i : ℚ) = ∑ _k ∈ Finset.Ico m (m + i), (1 : ℚ) := by
          simp [Nat.add_sub_cancel_left]
    _ ≤ _ := Finset.sum_le_sum fun k _ => one_le_pow₀ (by linarith)
  have hmid' : (i : ℚ) ≤ P * ∑ k ∈ Finset.Ico m (m + i), (1 + ρ) ^ (k + 1) :=
    le_trans hmid (le_mul_of_one_le_left (by linarith) hP)
  rw [← hsplit, mul_add]
  linarith

end MonotonicityLemmas

section ProjectionLemmas

theorem map_range_succ_shift {α : Type} (f : ℕ → α) (n : ℕ) :
    (List.range (n + 1)).map f = f 0 :: (List.range n).map (fun j => f (j + 1)) := by
  rw [List.range_succ_eq_map, List.map_cons, List.map_map]
  rfl

namespace SIPCalculator

theorem projectionLoop_eq (P ρ : ℚ) (months interval : ℕ) (hint : 0 < interval) :
    ∀ (k m : ℕ), months + 1 - m ≤ k →
      projectionLoop P ρ months interval m =
        if m ≤ months then
          (List.range ((months - m) / interval + 1)).map
            (fun j => projectionRow P ρ (m + j * interval))
        else [] := by
  intro k
  induction k with
  | zero =>
    intro m hk
    rw [projectionLoop, dif_neg (by omega), if_neg (by omega)]
  | succ k ih =>
    intro m hk
    by_cases hm : m ≤ months
    · rw [projectionLoop, dif_pos ⟨hint, hm⟩, ih (m + interval) (by omega), if_pos hm]
      by_cases hmi : m + interval ≤ months
      · rw [if_pos hmi]
        have hdiv : (months - m) / interval = (months - (m + interval)) / interval + 1 := by
          rw [show months - (m + interval) = months - m - interval by omega]
          exact Nat.div_eq_sub_div hint (by omega)
        rw [hdiv, map_range_succ_shift (fun j => projectionRow P ρ (m + j * interval))
          ((months - (m + interval)) / interval + 1)]
        congr 1
        · show projectionRow P ρ m = projectionRow P ρ (m + 0 * interval)
          norm_num
        · apply List.map_congr_left
          intro j _
          show projectionRow P ρ (m + interval + j * interval) =
            projectionRow P ρ (m + (j + 1) * interval)
          congr 1
          ring
      · rw [if_neg hmi]
        have hdiv : (months - m) / interval = 0 := Nat.div_eq_of_lt (by omega)
        rw [hdiv, show List.range 1 = [0] from rfl]
        show [projectionRow P ρ m] = [projectionRow P ρ (m + 0 * interval)]
        norm_num
    · rw [projectionLoop, dif_neg (by omega), if_neg hm]

theorem generateProjectionTable_eq (P : ℚ) (y : ℕ) (r : ℚ) (interval : ℕ)
    (hint : 0 < interval) :
    generateProjectionTable P y r interval =
      (List.range (y * 12 / interval)).map
        (fun i => projectionRow P (r / 12 / 100) ((i + 1) * interval)) := by
  unfold generateProjectionTable
  rw [projectionLoop_eq P (r / 12 / 100) (y * 12) interval hint (y * 12 + 1) interval (by omega)]
  by_cases hm : interval ≤ y * 12
  · rw [if_pos hm]
    have hdiv : (y * 12 - interval) / interval + 1 = y * 12 / interval :=
      (Nat.div_eq_sub_div hint hm).symm
    rw [hdiv]
    apply List.map_congr_left
    intro j _
    show projectionRow P (r / 12 / 100) (interval + j * interval) =
      projectionRow P (r / 12 / 100) ((j + 1) * interval)
    congr 1
    ring
  · rw [if_neg hm]
    have h0 : y * 12 / interval = 0 := Nat.div_eq_of_lt (by omega)
    rw [h0]
    rfl

end SIPCalculator

end ProjectionLemmas

namespace SIPCalculator

theorem projectionRow_futureValue_of_ne {P ρ : ℚ} (h : ρ ≠ 0) (m : ℕ) :
    (projectionRow P ρ m).futureValue = some (jround (fvExact P m ρ)) := by
  unfold projectionRow fvExact
  simp only [jdiv_some_some, if_neg h, jmul_some_some, jroundO_some]

end SIPCalculator

/-- Claim C1, counterexample: the claim quantifies over every rate >= 0, but at
rate 0 the forward computation divides by zero, the recovered monthly SIP is
non-finite, and verifyCalculation reports isAccurate = false with a non-finite
variance instead of a difference below 1. -/
theorem C1_counterexample :
    (SIPCalculator.verifyCalculation 10000 1 0).isAccurate = false ∧
    (SIPCalculator.verifyCalculation 10000 1 0).variance = none := by
  constructor <;>
    simp [SIPCalculator.verifyCalculation, SIPCalculator.calculateForwardSIP,
      SIPCalculator.calculateReverseSIP, jmul, jdiv, jsub, jabs, jlt, jroundO, castO]

/-- Claim C1, amended to rates > 0: for every monthlyAmount > 0, integer
years >= 1 and rate > 0, feeding the rounded forward futureValue into
calculateReverseSIP recovers a monthlySIP within strictly less than 1 of the
original amount, and verifyCalculation reports exactly this comparison in
isAccurate and the absolute difference in variance. -/
theorem C1_roundtrip (P : ℚ) (y : ℕ) (r : ℚ) (hP : 0 < P) (hy : 1 ≤ y) (hr : 0 < r) :
    ∃ s : ℤ, (SIPCalculator.verifyCalculation P y r).reverse.monthlySIP = some s ∧
      (SIPCalculator.verifyCalculation P y r).variance = some |(s : ℚ) - P| ∧
      |(s : ℚ) - P| < 1 ∧
      (SIPCalculator.verifyCalculation P y r).isAccurate = true := by
  have hρ : 0 < r / 12 / 100 := by positivity
  have hn12 : (12 : ℚ) ≤ ((y * 12 : ℕ) : ℚ) := by
    have h12 : 12 ≤ y * 12 := by omega
    exact_mod_cast h12
  have hD1 : 1 < annuityFactor (y * 12) (r / 12 / 100) := by
    calc (1 : ℚ) < 12 := by norm_num
    _ ≤ ((y * 12 : ℕ) : ℚ) := hn12
    _ ≤ annuityFactor (y * 12) (r / 12 / 100) := le_annuityFactor hρ _
  have hD0 : annuityFactor (y * 12) (r / 12 / 100) ≠ 0 := by
    intro hc
    rw [hc] at hD1
    norm_num at hD1
  obtain ⟨h1, h2, h3⟩ := SIPCalculator.verify_fields_of_ne hρ.ne' hD0
  have hlt : |(jround ((jround (fvExact P (y * 12) (r / 12 / 100)) : ℚ) /
      annuityFactor (y * 12) (r / 12 / 100)) : ℚ) - P| < 1 := by
    have hb := abs_roundtrip_lt_one P (annuityFactor (y * 12) (r / 12 / 100)) hD1
    rwa [← fvExact_eq_mul] at hb
  refine ⟨_, h1, h2, hlt, ?_⟩
  rw [h3, decide_eq_true_eq]
  exact hlt

/-- Claim C1 witness: the amended round-trip property at 10000 rupees,
1 year, 12 percent. -/
theorem C1_roundtrip_witness :
    (0 : ℚ) < 10000 ∧ 1 ≤ 1 ∧ (0 : ℚ) < 12 ∧
    ∃ s : ℤ, (SIPCalculator.verifyCalculation 10000 1 12).reverse.monthlySIP = some s ∧
      (SIPCalculator.verifyCalculation 10000 1 12).variance = some |(s : ℚ) - 10000| ∧
      |(s : ℚ) - 10000| < 1 ∧
      (SIPCalculator.verifyCalculation 10000 1 12).isAccurate = true :=
  ⟨by norm_num, le_rfl, by norm_num,
    C1_roundtrip 10000 1 12 (by norm_num) le_rfl (by norm_num)⟩

/-- Claim C2: at rate 0 the closed-form denominator is 0/0; the code has no
zero-rate special case, so the returned futureValue is non-finite (NaN in
JavaScript) instead of the claimed monthlyAmount * years * 12 = 12000. -/
theorem C2_zero_rate_not_special_cased :
    (SIPCalculator.calculateForwardSIP 1000 1 0).futureValue = none ∧
    (SIPCalculator.calculateForwardSIP 1000 1 0).futureValue ≠ some (jround ((1000 : ℚ) * (1 * 12))) := by
  have h : (SIPCalculator.calculateForwardSIP 1000 1 0).futureValue = none :=
    SIPCalculator.forward_futureValue_of_zero (by norm_num)
  exact ⟨h, by rw [h]; exact fun hc => Option.noConfusion hc⟩

/-- Claim C3, counterexample: at monthlyAmount = 0.06, years = 1, rate = 0 the
returned principal is 1, not 0.06 * 1 * 12 = 0.72, and futureValue and gains
are non-finite, so neither stated equality holds. -/
theorem C3_counterexample :
    (SIPCalculator.calculateForwardSIP (6/100) 1 0).futureValue = none ∧
    (SIPCalculator.calculateForwardSIP (6/100) 1 0).gains = none ∧
    (SIPCalculator.calculateForwardSIP (6/100) 1 0).principal = 1 ∧
    ((1 : ℤ) : ℚ) ≠ (6/100) * (1 * 12) := by
  refine ⟨?_, ?_, ?_, by norm_num⟩ <;>
    simp [SIPCalculator.calculateForwardSIP, jmul, jdiv, jsub, jroundO, jround] <;>
    norm_num

/-- Claim C3, amended to integer monthlyAmount and rate > 0: for every positive
integer monthlyAmount, integer years >= 1 and rate > 0, the returned fields
satisfy futureValue = principal + gains and principal = monthlyAmount * years * 12
exactly. -/
theorem C3_decomposition (a : ℤ) (y : ℕ) (r : ℚ) (ha : 0 < a) (hy : 1 ≤ y) (hr : 0 < r) :
    (SIPCalculator.calculateForwardSIP (a : ℚ) y r).principal = a * (y : ℤ) * 12 ∧
    ∃ g : ℤ, (SIPCalculator.calculateForwardSIP (a : ℚ) y r).gains = some g ∧
      (SIPCalculator.calculateForwardSIP (a : ℚ) y r).futureValue =
        some ((SIPCalculator.calculateForwardSIP (a : ℚ) y r).principal + g) := by
  have hρ : 0 < r / 12 / 100 := by positivity
  have hcast : (a : ℚ) * ((y * 12 : ℕ) : ℚ) = ((a * (y : ℤ) * 12 : ℤ) : ℚ) := by
    push_cast
    ring
  have hprin : (SIPCalculator.calculateForwardSIP (a : ℚ) y r).principal = a * (y : ℤ) * 12 := by
    rw [SIPCalculator.forward_principal, hcast, jround_intCast]
  refine ⟨hprin, jround (fvExact (a : ℚ) (y * 12) (r / 12 / 100) - (a : ℚ) * ((y * 12 : ℕ) : ℚ)), SIPCalculator.forward_gains_of_ne hρ.ne', ?_⟩
  rw [SIPCalculator.forward_futureValue_of_ne hρ.ne', hprin]
  have hsplit : fvExact (a : ℚ) (y * 12) (r / 12 / 100) =
      ((a * (y : ℤ) * 12 : ℤ) : ℚ) +
        (fvExact (a : ℚ) (y * 12) (r / 12 / 100) - (a : ℚ) * ((y * 12 : ℕ) : ℚ)) := by
    rw [← hcast]
    ring
  rw [hsplit, jround_intCast_add, hcast]
  have harg : ((a : ℚ) * ((y * 12 : ℕ) : ℚ) + (fvExact (a : ℚ) (y * 12) (r / 12 / 100) - (a : ℚ) * ((y * 12 : ℕ) : ℚ)) - (a : ℚ) * ((y * 12 : ℕ) : ℚ)) = fvExact (a : ℚ) (y * 12) (r / 12 / 100) - (a : ℚ) * ((y * 12 : ℕ) : ℚ) := by
    ring
  rw [← hcast, harg]

/-- Claim C3 witness: the amended decomposition identity at 10000 rupees,
1 year, 12 percent. -/
theorem C3_decomposition_witness :
    (SIPCalculator.calculateForwardSIP ((10000 : ℤ) : ℚ) 1 12).principal = 10000 * (1 : ℤ) * 12 ∧
    ∃ g : ℤ, (SIPCalculator.calculateForwardSIP ((10000 : ℤ) : ℚ) 1 12).gains = some g ∧
      (SIPCalculator.calculateForwardSIP ((10000 : ℤ) : ℚ) 1 12).futureValue =
        some ((SIPCalculator.calculateForwardSIP ((10000 : ℤ) : ℚ) 1 12).principal + g) :=
  C3_decomposition 10000 1 12 (by norm_num) le_rfl (by norm_num)

/-- Claim C4, counterexample: at monthlyAmount = 0.01 the rounded returned
futureValue is 0 both for 1 and 2 years at rate 12, and both for rates 12 and
24 at 1 year, so the returned field does not strictly increase in years or in
rate. -/
theorem C4_counterexample :
    (SIPCalculator.calculateForwardSIP (1/100) 1 12).futureValue = some 0 ∧
    (SIPCalculator.calculateForwardSIP (1/100) 2 12).futureValue = some 0 ∧
    (SIPCalculator.calculateForwardSIP (1/100) 1 24).futureValue = some 0 := by
  refine ⟨?_, ?_, ?_⟩ <;>
    · rw [SIPCalculator.forward_futureValue_of_ne (by norm_num)]
      norm_num [fvExact, jround]

/-- Claim C4, amended: for rates > 0 the unrounded future value strictly
increases with years and with the annual rate, and the returned rounded
futureValue field (which equals the rounded unrounded value) is monotone
non-decreasing in both. -/
theorem C4_monotonicity (P : ℚ) (y₁ y₂ : ℕ) (r₁ r₂ : ℚ) (hP : 0 < P)
    (hy : 1 ≤ y₁) (hyy : y₁ < y₂) (hr : 0 < r₁) (hrr : r₁ < r₂) :
    fvExact P (y₁ * 12) (r₁ / 12 / 100) < fvExact P (y₂ * 12) (r₁ / 12 / 100) ∧
    fvExact P (y₁ * 12) (r₁ / 12 / 100) < fvExact P (y₁ * 12) (r₂ / 12 / 100) ∧
    (SIPCalculator.calculateForwardSIP P y₁ r₁).futureValue =
      some (jround (fvExact P (y₁ * 12) (r₁ / 12 / 100))) ∧
    (SIPCalculator.calculateForwardSIP P y₂ r₁).futureValue =
      some (jround (fvExact P (y₂ * 12) (r₁ / 12 / 100))) ∧
    (SIPCalculator.calculateForwardSIP P y₁ r₂).futureValue =
      some (jround (fvExact P (y₁ * 12) (r₂ / 12 / 100))) ∧
    jround (fvExact P (y₁ * 12) (r₁ / 12 / 100)) ≤
      jround (fvExact P (y₂ * 12) (r₁ / 12 / 100)) ∧
    jround (fvExact P (y₁ * 12) (r₁ / 12 / 100)) ≤
      jround (fvExact P (y₁ * 12) (r₂ / 12 / 100)) := by
  have hρ₁ : 0 < r₁ / 12 / 100 := by positivity
  have hρ₂ : 0 < r₂ / 12 / 100 := by
    have hr₂ : 0 < r₂ := lt_trans hr hrr
    positivity
  have hρρ : r₁ / 12 / 100 < r₂ / 12 / 100 := by linarith
  have hmo : fvExact P (y₁ * 12) (r₁ / 12 / 100) < fvExact P (y₂ * 12) (r₁ / 12 / 100) :=
    fvExact_lt_fvExact_months hP hρ₁ (by omega)
  have hra : fvExact P (y₁ * 12) (r₁ / 12 / 100) < fvExact P (y₁ * 12) (r₂ / 12 / 100) :=
    fvExact_lt_fvExact_rate hP (by omega) hρ₁ hρρ
  exact ⟨hmo, hra, SIPCalculator.forward_futureValue_of_ne hρ₁.ne',
    SIPCalculator.forward_futureValue_of_ne hρ₁.ne',
    SIPCalculator.forward_futureValue_of_ne hρ₂.ne',
    jround_le hmo.le, jround_le hra.le⟩

/-- Claim C4 witness: the amended monotonicity at 10000 rupees comparing
1 versus 2 years and rate 12 versus 24 percent. -/
theorem C4_monotonicity_witness :
    fvExact 10000 (1 * 12) (12 / 12 / 100) < fvExact 10000 (2 * 12) (12 / 12 / 100) ∧
    fvExact 10000 (1 * 12) (12 / 12 / 100) < fvExact 10000 (1 * 12) (24 / 12 / 100) ∧
    (SIPCalculator.calculateForwardSIP 10000 1 12).futureValue =
      some (jround (fvExact 10000 (1 * 12) (12 / 12 / 100))) ∧
    (SIPCalculator.calculateForwardSIP 10000 2 12).futureValue =
      some (jround (fvExact 10000 (2 * 12) (12 / 12 / 100))) ∧
    (SIPCalculator.calculateForwardSIP 10000 1 24).futureValue =
      some (jround (fvExact 10000 (1 * 12) (24 / 12 / 100))) ∧
    jround (fvExact 10000 (1 * 12) (12 / 12 / 100)) ≤
      jround (fvExact 10000 (2 * 12) (12 / 12 / 100)) ∧
    jround (fvExact 10000 (1 * 12) (12 / 12 / 100)) ≤
      jround (fvExact 10000 (1 * 12) (24 / 12 / 100)) :=
  C4_monotonicity 10000 1 2 12 24 (by norm_num) le_rfl (by norm_num) (by norm_num) (by norm_num)

/-- Claim C5: for interval >= 1 the projection table is exactly one row per
multiple of the interval up to years*12, in increasing order, each row the
forward formula evaluated at that month; the table has floor(years*12/interval)
rows and no final partial row is appended. -/
theorem C5_projection_stepping (P : ℚ) (y : ℕ) (r : ℚ) (interval : ℕ)
    (hP : 0 < P) (hy : 1 ≤ y) (hint : 1 ≤ interval) :
    SIPCalculator.generateProjectionTable P y r interval =
      (List.range (y * 12 / interval)).map
        (fun i => SIPCalculator.projectionRow P (r / 12 / 100) ((i + 1) * interval)) ∧
    (SIPCalculator.generateProjectionTable P y r interval).length = y * 12 / interval ∧
    (SIPCalculator.generateProjectionTable P y r interval).map ProjectionRow.month =
      (List.range (y * 12 / interval)).map (fun i => (i + 1) * interval) := by
  have htab := SIPCalculator.generateProjectionTable_eq P y r interval (by omega)
  refine ⟨htab, ?_, ?_⟩
  · rw [htab, List.length_map, List.length_range]
  · rw [htab, List.map_map]
    rfl

/-- Claim C5 witness: the stepping property at 10000 rupees, 1 year, rate 12,
interval 5 months (5 does not divide 12: two rows, months 5 and 10, and no
final row for month 12). -/
theorem C5_projection_stepping_witness :
    SIPCalculator.generateProjectionTable 10000 1 12 5 =
      (List.range (1 * 12 / 5)).map
        (fun i => SIPCalculator.projectionRow 10000 (12 / 12 / 100) ((i + 1) * 5)) ∧
    (SIPCalculator.generateProjectionTable 10000 1 12 5).length = 1 * 12 / 5 ∧
    (SIPCalculator.generateProjectionTable 10000 1 12 5).map ProjectionRow.month =
      (List.range (1 * 12 / 5)).map (fun i => (i + 1) * 5) :=
  C5_projection_stepping 10000 1 12 5 (by norm_num) le_rfl (by norm_num)

/-- Claim C6, counterexample: at monthlyAmount = 0.01, years = 1, rate = 0,
interval = 6 the table has two rows with equal principal 0 and non-finite
futureValue in both rows, so successive rows are not strictly increasing in
principal or futureValue. -/
theorem C6_counterexample :
    (SIPCalculator.generateProjectionTable (1/100) 1 0 6).map
        (fun row => (row.month, row.principal, row.futureValue)) =
      [(6, 0, none), (12, 0, none)] := by
  rw [SIPCalculator.generateProjectionTable_eq (1/100) 1 0 6 (by norm_num)]
  show [((SIPCalculator.projectionRow (1/100) (0/12/100) (1 * 6)).month, _, _),
    ((SIPCalculator.projectionRow (1/100) (0/12/100) (2 * 6)).month, _, _)] = _
  simp [SIPCalculator.projectionRow, jmul, jdiv, jsub, jroundO, jround]
  norm_num

/-- Claim C6, amended to monthlyAmount >= 1 and rate > 0: successive projection
rows strictly increase in month, principal, and futureValue. -/
theorem C6_rows_strictly_increase (P : ℚ) (y : ℕ) (r : ℚ) (interval : ℕ)
    (hP : 1 ≤ P) (hy : 1 ≤ y) (hr : 0 < r) (hint : 1 ≤ interval) :
    List.Chain' (fun a b : ProjectionRow =>
        a.month < b.month ∧ a.principal < b.principal ∧
        ∃ v w : ℤ, a.futureValue = some v ∧ b.futureValue = some w ∧ v < w)
      (SIPCalculator.generateProjectionTable P y r interval) := by
  have hρ : 0 < r / 12 / 100 := by positivity
  rw [SIPCalculator.generateProjectionTable_eq P y r interval (by omega)]
  rcases hN : y * 12 / interval with _ | n
  · simp
  · rw [List.chain'_map, List.chain'_range_succ]
    intro m _hm
    have hmonths : (m + 2) * interval = (m + 1) * interval + interval := by ring
    have hQ : (((m + 1) * interval : ℕ) : ℚ) + (interval : ℚ) = (((m + 2) * interval : ℕ) : ℚ) := by
      push_cast
      ring
    have hI1 : (1 : ℚ) ≤ (interval : ℚ) := by exact_mod_cast hint
    refine ⟨?_, ?_, ?_⟩
    · show (m + 1) * interval < (m + 2) * interval
      exact mul_lt_mul_of_pos_right (by omega) (by omega)
    · show jround (P * (((m + 1) * interval : ℕ) : ℚ)) < jround (P * (((m + 2) * interval : ℕ) : ℚ))
      apply jround_lt
      have hPI : (1 : ℚ) ≤ P * (interval : ℚ) :=
        one_le_mul_of_one_le_of_one_le hP hI1
      calc P * (((m + 1) * interval : ℕ) : ℚ) + 1
          ≤ P * (((m + 1) * interval : ℕ) : ℚ) + P * (interval : ℚ) := by linarith
      _ = P * ((((m + 1) * interval : ℕ) : ℚ) + (interval : ℚ)) := by ring
      _ = P * (((m + 2) * interval : ℕ) : ℚ) := by rw [hQ]
    · refine ⟨jround (fvExact P ((m + 1) * interval) (r / 12 / 100)),
        jround (fvExact P ((m + 2) * interval) (r / 12 / 100)),
        SIPCalculator.projectionRow_futureValue_of_ne hρ.ne' _,
        SIPCalculator.projectionRow_futureValue_of_ne hρ.ne' _, ?_⟩
      apply jround_lt
      have hadd := fvExact_add_le hP hρ ((m + 1) * interval) interval
      rw [← hmonths] at hadd
      calc fvExact P ((m + 1) * interval) (r / 12 / 100) + 1
          ≤ fvExact P ((m + 1) * interval) (r / 12 / 100) + (interval : ℚ) := by linarith
      _ ≤ fvExact P ((m + 2) * interval) (r / 12 / 100) := hadd

/-- Claim C6 witness: strictly increasing rows at 10000 rupees, 1 year,
rate 12, interval 6. -/
theorem C6_rows_strictly_increase_witness :
    List.Chain' (fun a b : ProjectionRow =>
        a.month < b.month ∧ a.principal < b.principal ∧
        ∃ v w : ℤ, a.futureValue = some v ∧ b.futureValue = some w ∧ v < w)
      (SIPCalculator.generateProjectionTable 10000 1 12 6) :=
  C6_rows_strictly_increase 10000 1 12 6 (by norm_num) le_rfl (by norm_num) (by norm_num)

/-- Claim C7: with monthlyAmount = 0, years = 1 and rate = 12 the computed
future value is exactly 0, and the returned gainPercent is the non-finite
result of 0/0 (NaN in JavaScript), not 0. -/
theorem C7_gainPercent_not_finite :
    (SIPCalculator.calculateForwardSIP 0 1 12).futureValue = some 0 ∧
    (SIPCalculator.calculateForwardSIP 0 1 12).gainPercent = none := by
  refine ⟨?_, ?_⟩ <;>
    simp [SIPCalculator.calculateForwardSIP, jmul, jdiv, jsub, jroundO, jround] <;>
    norm_num

/-- Claim C9: Utils.calculateSIPFuture computes exactly the same unrounded
future value expression as the engine forward calculation (despite writing the
rate conversion and the product association differently), and rounding its
futureValue, principal and gains yields exactly the corresponding fields
returned by SIPCalculator.calculateForwardSIP. -/
theorem C9_utils_forward_equiv (sip : ℚ) (y : ℕ) (r : ℚ) :
    (Utils.calculateSIPFuture sip y r).futureValue =
      jmul (jmul (some sip)
          (jdiv (some ((1 + r / 12 / 100) ^ (y * 12) - 1)) (some (r / 12 / 100))))
        (some (1 + r / 12 / 100)) ∧
    (SIPCalculator.calculateForwardSIP sip y r).futureValue =
      jroundO (Utils.calculateSIPFuture sip y r).futureValue ∧
    (SIPCalculator.calculateForwardSIP sip y r).principal =
      jround (Utils.calculateSIPFuture sip y r).principal ∧
    (SIPCalculator.calculateForwardSIP sip y r).gains =
      jroundO (Utils.calculateSIPFuture sip y r).gains := by
  have hrate : r / 100 / 12 = r / 12 / 100 := by ring
  have h1 : (Utils.calculateSIPFuture sip y r).futureValue =
      jmul (jmul (some sip)
          (jdiv (some ((1 + r / 12 / 100) ^ (y * 12) - 1)) (some (r / 12 / 100))))
        (some (1 + r / 12 / 100)) := by
    show jmul (jdiv (jmul (some sip) (some ((1 + r / 100 / 12) ^ (y * 12) - 1)))
        (some (r / 100 / 12))) (some (1 + r / 100 / 12)) = _
    rw [hrate]
    by_cases hρ : r / 12 / 100 = 0
    · simp [jmul, jdiv, hρ]
    · rw [jmul_some_some, jdiv_some_some, if_neg hρ, jdiv_some_some, if_neg hρ,
        jmul_some_some, jmul_some_some, jmul_some_some, mul_div_assoc]
  refine ⟨h1, ?_, rfl, ?_⟩
  · show jroundO (jmul (jmul (some sip)
        (jdiv (some ((1 + r / 12 / 100) ^ (y * 12) - 1)) (some (r / 12 / 100))))
      (some (1 + r / 12 / 100))) = jroundO (Utils.calculateSIPFuture sip y r).futureValue
    rw [h1]
  · show jroundO (jsub (jmul (jmul (some sip)
        (jdiv (some ((1 + r / 12 / 100) ^ (y * 12) - 1)) (some (r / 12 / 100))))
      (some (1 + r / 12 / 100))) (some (sip * ((y * 12 : ℕ) : ℚ)))) =
      jroundO (Utils.calculateSIPFuture sip y r).gains
    have h2 : (Utils.calculateSIPFuture sip y r).gains =
        jsub (Utils.calculateSIPFuture sip y r).futureValue
          (some (sip * ((y * 12 : ℕ) : ℚ))) := rfl
    rw [h2, h1]

/-- Claim C10: for every metrics record the fund score is between 35 and 100
inclusive: each criterion contributes at least 10, 5, 10, 10 respectively and
at most 25. -/
theorem C10_scoreFund_bounds (m : Utils.FundMetrics) :
    35 ≤ Utils.scoreFund m ∧ Utils.scoreFund m ≤ 100 := by
  have key : ∀ q : ℚ, 35 ≤ q → q ≤ 100 → 35 ≤ jround q ∧ jround q ≤ 100 := by
    intro q h1 h2
    have h35 : jround (35 : ℚ) = 35 := by norm_num [jround]
    have h100 : jround (100 : ℚ) = 100 := by norm_num [jround]
    have hl := jround_le h1
    have hh := jround_le h2
    rw [h35] at hl
    rw [h100] at hh
    exact ⟨hl, hh⟩
  have hexpr : Utils.scoreFund m = jround
      ((if m.er ≤ 1/2 then (25 : ℚ) else if m.er ≤ 1 then 20 else if m.er ≤ 3/2 then 15 else 10) +
       ((if m.alpha ≥ 3 then (25 : ℚ) else if m.alpha ≥ 2 then 20 else if m.alpha ≥ 1 then 15
           else if m.alpha ≥ 0 then 10 else 5) +
        ((if m.sharpe ≥ 2 then (25 : ℚ) else if m.sharpe ≥ 3/2 then 20 else if m.sharpe ≥ 1 then 15
            else 10) +
         (if m.cagr ≥ 18 then (25 : ℚ) else if m.cagr ≥ 15 then 20 else if m.cagr ≥ 12 then 15
           else 10)))) := rfl
  have e1 : (10 : ℚ) ≤ (if m.er ≤ 1/2 then (25 : ℚ) else if m.er ≤ 1 then 20
        else if m.er ≤ 3/2 then 15 else 10) ∧
      (if m.er ≤ 1/2 then (25 : ℚ) else if m.er ≤ 1 then 20 else if m.er ≤ 3/2 then 15
        else 10) ≤ 25 := by
    split_ifs <;> norm_num
  have e2 : (5 : ℚ) ≤ (if m.alpha ≥ 3 then (25 : ℚ) else if m.alpha ≥ 2 then 20
        else if m.alpha ≥ 1 then 15 else if m.alpha ≥ 0 then 10 else 5) ∧
      (if m.alpha ≥ 3 then (25 : ℚ) else if m.alpha ≥ 2 then 20 else if m.alpha ≥ 1 then 15
        else if m.alpha ≥ 0 then 10 else 5) ≤ 25 := by
    split_ifs <;> norm_num
  have e3 : (10 : ℚ) ≤ (if m.sharpe ≥ 2 then (25 : ℚ) else if m.sharpe ≥ 3/2 then 20
        else if m.sharpe ≥ 1 then 15 else 10) ∧
      (if m.sharpe ≥ 2 then (25 : ℚ) else if m.sharpe ≥ 3/2 then 20 else if m.sharpe ≥ 1 then 15
        else 10) ≤ 25 := by
    split_ifs <;> norm_num
  have e4 : (10 : ℚ) ≤ (if m.cagr ≥ 18 then (25 : ℚ) else if m.cagr ≥ 15 then 20
        else if m.cagr ≥ 12 then 15 else 10) ∧
      (if m.cagr ≥ 18 then (25 : ℚ) else if m.cagr ≥ 15 then 20 else if m.cagr ≥ 12 then 15
        else 10) ≤ 25 := by
    split_ifs <;> norm_num
  rw [hexpr]
  exact key _ (by linarith [e1.1, e2.1, e3.1, e4.1]) (by linarith [e1.2, e2.2, e3.2, e4.2])
